import Mathlib

/-!
# Verification of the LG-Pay canonical request-signing core

This file is a shallow embedding of the signing, order-building and webhook
verification code of the `messho-backend` repository (`server.js` and the
unnamed server variants), together with theorems settling the specification
claims about it.

The embedding models:

* JavaScript scalar values appearing in parameter maps (`JsValue`);
* JavaScript objects as insertion-ordered association lists (`PMap`) with the
  object operations the code uses (spread-copy, `delete`, key listing, member
  access, property assignment);
* the MD5 digest (RFC 1321) executably over `Nat` with explicit reduction
  modulo `2^32`, since the code calls `crypto.createHash('md5')`;
* the canonical signing functions `md5_sign` (root `server.js`, duplicated as
  `generateSignature` in the unnamed variants 000/001/002), `md5_sign_v2`
  (root alternative) and the `part_003` variant of `md5_sign`;
* the webhook handlers and the create-order handlers of the variants the
  claims cite.
-/

/-! ## MD5 over `Nat` (RFC 1321), as invoked by `crypto.createHash('md5')` -/

/-- Reduce modulo `2^32`: all MD5 word arithmetic is 32-bit. -/
def u32 (n : Nat) : Nat := n % 4294967296

/-- Bitwise complement within 32 bits. -/
def u32not (x : Nat) : Nat := Nat.xor x 4294967295

/-- Left-rotate a 32-bit word by `s` places (`0 < s < 32` in every MD5 use). -/
def rotl32 (x s : Nat) : Nat :=
  u32 (Nat.shiftLeft x s) ||| Nat.shiftRight (u32 x) (32 - s)

/-- The 64 MD5 sine-derived constants `T[i] = floor(2^32 * |sin(i+1)|)`. -/
def md5T : List Nat :=
  [0xd76aa478, 0xe8c7b756, 0x242070db, 0xc1bdceee,
   0xf57c0faf, 0x4787c62a, 0xa8304613, 0xfd469501,
   0x698098d8, 0x8b44f7af, 0xffff5bb1, 0x895cd7be,
   0x6b901122, 0xfd987193, 0xa679438e, 0x49b40821,
   0xf61e2562, 0xc040b340, 0x265e5a51, 0xe9b6c7aa,
   0xd62f105d, 0x02441453, 0xd8a1e681, 0xe7d3fbc8,
   0x21e1cde6, 0xc33707d6, 0xf4d50d87, 0x455a14ed,
   0xa9e3e905, 0xfcefa3f8, 0x676f02d9, 0x8d2a4c8a,
   0xfffa3942, 0x8771f681, 0x6d9d6122, 0xfde5380c,
   0xa4beea44, 0x4bdecfa9, 0xf6bb4b60, 0xbebfbc70,
   0x289b7ec6, 0xeaa127fa, 0xd4ef3085, 0x04881d05,
   0xd9d4d039, 0xe6db99e5, 0x1fa27cf8, 0xc4ac5665,
   0xf4292244, 0x432aff97, 0xab9423a7, 0xfc93a039,
   0x655b59c3, 0x8f0ccc92, 0xffeff47d, 0x85845dd1,
   0x6fa87e4f, 0xfe2ce6e0, 0xa3014314, 0x4e0811a1,
   0xf7537e82, 0xbd3af235, 0x2ad7d2bb, 0xeb86d391]

/-- The per-step left-rotation amounts of MD5. -/
def md5S : List Nat :=
  [7, 12, 17, 22, 7, 12, 17, 22, 7, 12, 17, 22, 7, 12, 17, 22,
   5,  9, 14, 20, 5,  9, 14, 20, 5,  9, 14, 20, 5,  9, 14, 20,
   4, 11, 16, 23, 4, 11, 16, 23, 4, 11, 16, 23, 4, 11, 16, 23,
   6, 10, 15, 21, 6, 10, 15, 21, 6, 10, 15, 21, 6, 10, 15, 21]

/-- The MD5 round function applied at step `i` to words `b`, `c`, `d`. -/
def md5F (i b c d : Nat) : Nat :=
  if i < 16 then (b &&& c) ||| (u32not b &&& d)
  else if i < 32 then (d &&& b) ||| (u32not d &&& c)
  else if i < 48 then Nat.xor (Nat.xor b c) d
  else Nat.xor c (b ||| u32not d)

/-- The message-word index used by MD5 at step `i`. -/
def md5G (i : Nat) : Nat :=
  if i < 16 then i
  else if i < 32 then (5 * i + 1) % 16
  else if i < 48 then (3 * i + 5) % 16
  else (7 * i) % 16

/-- One MD5 step on the running state `(a, b, c, d)` with message words `m`. -/
def md5Step (m : List Nat) (st : Nat × Nat × Nat × Nat) (i : Nat) :
    Nat × Nat × Nat × Nat :=
  let (a, b, c, d) := st
  let f := md5F i b c d
  let tmp := u32 (a + f + md5T.getD i 0 + m.getD (md5G i) 0)
  (d, u32 (b + rotl32 tmp (md5S.getD i 0)), b, c)

/-- Word `j` (little-endian) of 64-byte block `bi` of the padded message. -/
def md5Word (bytes : List Nat) (bi j : Nat) : Nat :=
  let o := 64 * bi + 4 * j
  bytes.getD o 0 + 256 * bytes.getD (o + 1) 0 +
    65536 * bytes.getD (o + 2) 0 + 16777216 * bytes.getD (o + 3) 0

/-- Process one 64-byte block: run the 64 steps and add into the state. -/
def md5Block (bytes : List Nat) (st : Nat × Nat × Nat × Nat) (bi : Nat) :
    Nat × Nat × Nat × Nat :=
  let m := (List.range 16).map (md5Word bytes bi)
  let (a, b, c, d) := st
  let (a', b', c', d') := (List.range 64).foldl (md5Step m) st
  (u32 (a + a'), u32 (b + b'), u32 (c + c'), u32 (d + d'))

/-- MD5 padding: `0x80`, zeros to 56 mod 64, then the bit length in 8
little-endian bytes. -/
def md5Pad (msg : List Nat) : List Nat :=
  let len := msg.length
  let zeros := (120 - (len + 1) % 64) % 64
  msg ++ 128 :: List.replicate zeros 0 ++
    (List.range 8).map fun i => Nat.shiftRight (len * 8) (8 * i) % 256

/-- A 32-bit word as its four little-endian bytes. -/
def le4 (x : Nat) : List Nat :=
  [x % 256, Nat.shiftRight x 8 % 256, Nat.shiftRight x 16 % 256,
   Nat.shiftRight x 24 % 256]

/-- The 16 digest bytes of the MD5 of a byte sequence. -/
def md5Digest (msg : List Nat) : List Nat :=
  let padded := md5Pad msg
  let (a, b, c, d) :=
    (List.range (padded.length / 64)).foldl (md5Block padded)
      (0x67452301, 0xefcdab89, 0x98badcfe, 0x10325476)
  le4 a ++ le4 b ++ le4 c ++ le4 d

/-- The UTF-8 bytes of a character, as the `'utf8'` update encoding does. -/
def utf8EncodeCharNat (c : Char) : List Nat :=
  let n := c.toNat
  if n < 128 then [n]
  else if n < 2048 then [192 + n / 64, 128 + n % 64]
  else if n < 65536 then [224 + n / 4096, 128 + n / 64 % 64, 128 + n % 64]
  else [240 + n / 262144, 128 + n / 4096 % 64, 128 + n / 64 % 64, 128 + n % 64]

/-- The UTF-8 byte sequence of a string. -/
def utf8Bytes (s : String) : List Nat :=
  (s.data.map utf8EncodeCharNat).flatten

/-- A hex digit character, lowercase as `digest('hex')` renders it. -/
def hexDigitLower (n : Nat) : Char :=
  if n < 10 then Char.ofNat (48 + n) else Char.ofNat (87 + n)

/-- A byte as two lowercase hex characters. -/
def byteHexLower (b : Nat) : String :=
  String.mk [hexDigitLower (b / 16), hexDigitLower (b % 16)]

/-- The call `crypto.createHash('md5').update(s, 'utf8').digest('hex')`. -/
def md5HexLower (s : String) : String :=
  String.join ((md5Digest (utf8Bytes s)).map byteHexLower)

/-- JavaScript `String.prototype.toUpperCase` restricted to ASCII, which is
all that a hex digest contains (character-by-character, over the string's
character list so that it evaluates inside the kernel). -/
def jsToUpperCase (s : String) : String :=
  String.mk (s.data.map fun c =>
    if 97 ≤ c.toNat ∧ c.toNat ≤ 122 then Char.ofNat (c.toNat - 32) else c)

/-- The uppercase hexadecimal MD5 digest of a string: the composition
`digest('hex').toUpperCase()` used by every signing function in the source. -/
def md5HexUpper (s : String) : String :=
  jsToUpperCase (md5HexLower s)

/-! ## JavaScript values and objects -/

/-- A JavaScript scalar value as it occurs in the parameter maps of the
source: a string, an (integral) number, `null`, or `undefined`. Numeric
request amounts are modelled separately (`AmountInput`); values stored in
parameter maps by this code are strings or integers. -/
inductive JsValue where
  | str : String → JsValue
  | num : Int → JsValue
  | null : JsValue
  | undef : JsValue
deriving DecidableEq, Repr

/-- A JavaScript object as the code uses it: an insertion-ordered list of
(field name, value) pairs.  Spreading (`{...data}`) preserves it, so it is
the identity here; object literals have pairwise-distinct keys, which the
theorems carry as a `Nodup` hypothesis where it matters. -/
abbrev PMap : Type := List (String × JsValue)

/-- Member access `m[k]`: the value at the first pair named `k`, if any. -/
def objGet (m : PMap) (k : String) : Option JsValue :=
  (List.find? (fun p => p.1 == k) m).map Prod.snd

/-- Deletion `delete m[k]`: remove every pair named `k`. -/
def objDelete (m : PMap) (k : String) : PMap :=
  List.filter (fun p => p.1 != k) m

/-- Key listing `Object.keys(m)`: the field names in insertion order. -/
def objKeys (m : PMap) : List String :=
  List.map Prod.fst m

/-- Property assignment `m[k] = v`: overwrite in place when the key exists,
append otherwise — exactly JavaScript's update semantics. -/
def objSet (m : PMap) (k : String) (v : JsValue) : PMap :=
  if List.any m (fun p => p.1 == k) then
    List.map (fun p => if p.1 == k then (k, v) else p) m
  else m ++ [(k, v)]

/-- JavaScript truthiness of a scalar value. -/
def jsVTruthy : JsValue → Bool
  | .str s => s != ""
  | .num n => n != 0
  | .null => false
  | .undef => false

/-- Template-literal rendering `${value}` of a scalar value. -/
def renderValue : JsValue → String
  | .str s => s
  | .num n => toString n
  | .null => "null"
  | .undef => "undefined"

/-- The filter of the signing loop: `value !== null && value !== undefined
&& value !== ''`.  A number is never strictly equal to `''`, so numbers
always pass. -/
def isSignable : JsValue → Bool
  | .str s => s != ""
  | .num _ => true
  | .null => false
  | .undef => false

/-- JavaScript strict equality between a scalar value and a string (the
webhook compares `receivedSign !== expectedSign` where the expected side is
always a string). -/
def jsStrictEqStr (v : JsValue) (t : String) : Bool :=
  match v with
  | .str s => s == t
  | _ => false

/-! ## The canonical signing functions -/

/-- Default `Array.prototype.sort()` on field names: ascending string order. -/
def sortKeys (ks : List String) : List String :=
  List.insertionSort (· ≤ ·) ks

/-- The string-to-sign built by `md5_sign` in `server.js` (lines 26–49):
copy the map, delete the reserved `sign` field, sort the remaining keys,
render each non-empty field as `name=value`, join with `&`, and append
`"&key=" + key`. -/
def stringToSign (data : PMap) (key : String) : String :=
  let dataToSign := objDelete data "sign"
  let sortedKeys := sortKeys (objKeys dataToSign)
  let pairs := sortedKeys.filterMap fun k =>
    match objGet dataToSign k with
    | some value => if isSignable value then some (k ++ "=" ++ renderValue value) else none
    | none => none
  String.intercalate "&" pairs ++ "&key=" ++ key

/-- Function `md5_sign` of the root `server.js` (lines 20–56): the uppercase hex MD5
of the canonical string-to-sign. -/
def md5_sign (data : PMap) (key : String) : String :=
  md5HexUpper (stringToSign data key)

/-- Function `generateSignature` of the unnamed variants 000/001/002 — line-for-line
the same algorithm as the root `md5_sign`. -/
def generateSignature : PMap → String → String := md5_sign

/-- Composition of `URLSearchParams.toString()` with `decodeURIComponent`: every
percent-escape introduced by the urlencoded serializer is undone by the
decode, except that a space is serialized as `+`, which `decodeURIComponent`
leaves alone.  The composition therefore replaces each space with `+`. -/
def urlPlus (s : String) : String :=
  String.mk (s.data.map fun c => if c = ' ' then '+' else c)

/-- Function `md5_sign_v2` of the root `server.js` (lines 59–86): same key sorting
and emptiness filter, but each pair is passed through the
`URLSearchParams`-encode / `decodeURIComponent` round trip. -/
def md5_sign_v2 (data : PMap) (key : String) : String :=
  let dataToSign := objDelete data "sign"
  let sortedKeys := sortKeys (objKeys dataToSign)
  let pairs := sortedKeys.filterMap fun k =>
    match objGet dataToSign k with
    | some value =>
        if isSignable value then some (urlPlus k ++ "=" ++ urlPlus (renderValue value))
        else none
    | none => none
  md5HexUpper (String.intercalate "&" pairs ++ "&key=" ++ key)

/-- Function `md5_sign` of `part_003` (lines 20–43): sorts the keys, serializes every
pair (no emptiness filter, `null`/`undefined` stringified by `append`),
decodes, trims, and appends `"&key=" + key`. -/
def md5_signP3 (data : PMap) (key : String) : String :=
  let sortedKeys := sortKeys (objKeys data)
  let pairs := sortedKeys.filterMap fun k =>
    (objGet data k).map fun v => urlPlus k ++ "=" ++ urlPlus (renderValue v)
  md5HexUpper ((String.intercalate "&" pairs).trim ++ "&key=" ++ key)

/-- The pair the signing loop keeps for key `k`: the looked-up value, when
signable. -/
def pairFn (m : PMap) (k : String) : Option (String × JsValue) :=
  match objGet m k with
  | some value => if isSignable value then some (k, value) else none
  | none => none

/-- The `name=value` rendering of one pair of the canonical string. -/
def renderPair (p : String × JsValue) : String :=
  p.1 ++ "=" ++ renderValue p.2

/-- Order on pairs by field name (non-strict). -/
def keyLe (p q : String × JsValue) : Prop := p.1 ≤ q.1

/-- Order on pairs by field name (strict). -/
def keyLt (p q : String × JsValue) : Prop := p.1 < q.1

instance : DecidableRel keyLe :=
  fun p q => inferInstanceAs (Decidable (p.1 ≤ q.1))

instance : IsTotal (String × JsValue) keyLe :=
  ⟨fun a b => le_total a.1 b.1⟩

instance : IsTrans (String × JsValue) keyLe :=
  ⟨fun _ _ _ h1 h2 => le_trans h1 h2⟩

instance : IsAntisymm (String × JsValue) keyLt :=
  ⟨fun _ _ h1 h2 => absurd h2 (lt_asymm h1)⟩

/-- The canonical string of spec §4.1 as the claims phrase it: drop the
fields whose value is empty/null/undefined, sort the remaining fields by
name in ascending byte order, render each as `name=value` with the raw
value, join with `&`, and append the literal suffix `&key=<secret>`.  This
definition follows the specification's words; the theorems compare it with
`stringToSign`, which follows the source. -/
def specCanonicalString (m : PMap) (key : String) : String :=
  let signable := List.filter (fun p => isSignable p.2) m
  let sorted := List.insertionSort keyLe signable
  String.intercalate "&" (sorted.map renderPair) ++ "&key=" ++ key

/-! ## Webhook endpoints -/

/-- Outcome of a webhook request, naming the response each branch sends. -/
inductive WebhookResult where
  | configError       -- HTTP 500 'Configuration error'
  | emptyData         -- HTTP 400 'Empty webhook data' (part_003 only)
  | invalidSignature  -- HTTP 400 'Invalid signature'
  | success           -- the literal acknowledgement 'success'
deriving DecidableEq, Repr

/-- The HTTP status each webhook outcome is sent with. -/
def webhookStatus : WebhookResult → Nat
  | .configError => 500
  | .emptyData => 400
  | .invalidSignature => 400
  | .success => 200

/-- The `/api/webhook` handler of the root `server.js` (lines 346–378); the
handlers of the unnamed variants 000, 001 and 002 are line-for-line the same
logic.  The secret is the `LGPAY_SECRET_KEY` environment value, with an
unset variable modelled as the (equally falsy) empty string.  If the `sign`
member is truthy it is verified by strict comparison against the recomputed
signature; otherwise verification is skipped and `'success'` is sent. -/
def webhook (notifyData : PMap) (secret_key : String) : WebhookResult :=
  if secret_key = "" then .configError
  else
    match objGet notifyData "sign" with
    | some receivedSign =>
        if jsVTruthy receivedSign then
          if jsStrictEqStr receivedSign
              (md5_sign (objDelete notifyData "sign") secret_key) then .success
          else .invalidSignature
        else .success
    | none => .success

/-- The `/api/webhook` handler of `part_003` (lines 253–311): identical to
the others except that an empty body is rejected first and the variant's own
`md5_sign` is used. -/
def webhookP3 (notifyData : PMap) (secret_key : String) : WebhookResult :=
  if secret_key = "" then .configError
  else if notifyData.isEmpty then .emptyData
  else
    match objGet notifyData "sign" with
    | some receivedSign =>
        if jsVTruthy receivedSign then
          if jsStrictEqStr receivedSign
              (md5_signP3 (objDelete notifyData "sign") secret_key) then .success
          else .invalidSignature
        else .success
    | none => .success

/-- Attach the computed signature under the reserved field, as the order
builders do with `orderData.sign = signature`. -/
def signAttached (m : PMap) (key : String) : PMap :=
  objSet m "sign" (.str (md5_sign m key))

/-- The pure verification step of the webhook (root `server.js` lines
358–368): extract the claimed token, strip the reserved field, recompute the
signature, and compare by strict string equality. -/
def verifySignature (m : PMap) (key : String) : Bool :=
  match objGet m "sign" with
  | some receivedSign =>
      jsStrictEqStr receivedSign (md5_sign (objDelete m "sign") key)
  | none => false

/-! ## Create-order endpoints -/

/-- The request body's `amount` member.  A JSON number is modelled as the
rational it denotes; a string that does not parse as a number is `nan`
(both `isNaN` and arithmetic treat it so), and a numeric string is modelled
by its numeric value, which is how every check and conversion in the code
consumes it. -/
inductive AmountInput where
  | missing
  | nan
  | num : ℚ → AmountInput
deriving DecidableEq

/-- JavaScript falsiness of the `amount` member (`!amount`): `undefined`,
`NaN` and `0` are falsy. -/
def amountFalsy : AmountInput → Bool
  | .missing => true
  | .nan => true
  | .num q => q == 0

/-- The check `isNaN(amount)`. -/
def amountIsNaN : AmountInput → Bool
  | .nan => true
  | _ => false

/-- The check `amount <= 0`: comparison against `NaN` or `undefined` is false. -/
def amountLeZero : AmountInput → Bool
  | .num q => q ≤ 0
  | _ => false

/-- The full validation guard of variants 000 and 001:
`!amount || isNaN(amount) || amount <= 0`. -/
def amountInvalid (a : AmountInput) : Bool :=
  amountFalsy a || amountIsNaN a || amountLeZero a

/-- The conversion `parseFloat(amount)` on an input that passed validation (validation
leaves only genuine numbers). -/
def parseFloatQ : AmountInput → ℚ
  | .num q => q
  | _ => 0

/-- Rounding `Math.round`: nearest integer, halves towards positive infinity. -/
def jsRound (q : ℚ) : Int := ⌊q + 1 / 2⌋

/-- The process-wide gateway configuration (`LGPAY_*` environment values);
an unset variable is modelled as the equally falsy empty string. -/
structure Config where
  app_id : String
  secret_key : String
  trade_type : String
  notify_url : String
deriving DecidableEq

/-- The check `!LGPAY_APP_ID || !LGPAY_SECRET_KEY || !LGPAY_TRADE_TYPE`. -/
def configMissing (cfg : Config) : Bool :=
  cfg.app_id == "" || cfg.secret_key == "" || cfg.trade_type == ""

/-- The fallback `req.ip || '127.0.0.1'`. -/
def clientIp (reqIp : Option String) : String :=
  match reqIp with
  | some s => if s = "" then "127.0.0.1" else s
  | none => "127.0.0.1"

/-- The order parameter map composed by variants 000/001/002 and the root:
the seven fields, in insertion order, with the minor-unit amount rendered by
`amountInPaisa.toString()`. -/
def orderFields (cfg : Config) (orderSn : String) (amountInPaisa : Int)
    (reqIp : Option String) : PMap :=
  [("app_id", .str cfg.app_id),
   ("trade_type", .str cfg.trade_type),
   ("order_sn", .str orderSn),
   ("money", .str (toString amountInPaisa)),
   ("notify_url", .str cfg.notify_url),
   ("ip", .str (clientIp reqIp)),
   ("remark", .str "Order payment")]

/-- Outcome of a create-order request in the variants without a minimum
threshold (`part_001`; `part_002`'s handler differs only in skipping the
`isNaN`/`<= 0` checks).  The `order` constructor carries the SignedRequest
transmitted to the gateway. -/
inductive CreateOrderResult where
  | invalidAmount                -- HTTP 400
  | configMissingErr             -- HTTP 500
  | order : PMap → CreateOrderResult
deriving DecidableEq

/-- The HTTP status of each rejecting create-order outcome (a produced
order proceeds to the gateway call instead of answering immediately). -/
def createOrderStatus : CreateOrderResult → Nat
  | .invalidAmount => 400
  | .configMissingErr => 500
  | .order _ => 200

/-- The `/api/create-order` handler of `part_001` (lines 97–156) up to the
gateway transmission: validate the amount, check the configuration, convert
to minor units only after validation, compose the seven order fields, sign,
and attach the signature. -/
def createOrderP1 (amount : AmountInput) (cfg : Config) (reqIp : Option String)
    (orderSn : String) : CreateOrderResult :=
  if amountInvalid amount then .invalidAmount
  else if configMissing cfg then .configMissingErr
  else
    let amountInRupees := parseFloatQ amount
    let amountInPaisa := jsRound (amountInRupees * 100)
    let orderData := orderFields cfg orderSn amountInPaisa reqIp
    .order (objSet orderData "sign"
      (.str (generateSignature orderData cfg.secret_key)))

/-- The minimum order amount of `part_000` (`LGPAY_MIN_AMOUNT`, rupees). -/
def LGPAY_MIN_AMOUNT : ℚ := 200

/-- Outcome of a create-order request in `part_000`, which enforces the
minimum.  `belowMinimum` carries the numbers reported in the 400 response:
`minimumAmount`, `currentAmount`, and the `difference` debug field. -/
inductive CreateOrderResultMin where
  | invalidAmount
  | belowMinimum : ℚ → ℚ → ℚ → CreateOrderResultMin
  | configMissingErr
  | order : PMap → CreateOrderResultMin
deriving DecidableEq

/-- The HTTP status of each rejecting outcome of `part_000`. -/
def createOrderMinStatus : CreateOrderResultMin → Nat
  | .invalidAmount => 400
  | .belowMinimum _ _ _ => 400
  | .configMissingErr => 500
  | .order _ => 200

/-- The `/api/create-order` handler of `part_000` (lines 135–207) up to the
gateway transmission: the same pipeline as `part_001` with the minimum
check inserted after amount validation and before the configuration
check. -/
def createOrderP0 (amount : AmountInput) (cfg : Config) (reqIp : Option String)
    (orderSn : String) : CreateOrderResultMin :=
  if amountInvalid amount then .invalidAmount
  else
    let amountInRupees := parseFloatQ amount
    if amountInRupees < LGPAY_MIN_AMOUNT then
      .belowMinimum LGPAY_MIN_AMOUNT amountInRupees
        (LGPAY_MIN_AMOUNT - amountInRupees)
    else if configMissing cfg then .configMissingErr
    else
      let amountInPaisa := jsRound (amountInRupees * 100)
      let orderData := orderFields cfg orderSn amountInPaisa reqIp
      .order (objSet orderData "sign"
        (.str (generateSignature orderData cfg.secret_key)))

/-! ## The root `/api/create-order` handler (claim C10) -/

/-- The fields of the gateway's JSON response that the root handler reads.
Absent members are `none`; `msg` and the URL fields are strings, `status`
a number. -/
structure GwResponse where
  msg : Option String := none
  status : Option Int := none
  pay_url : Option String := none
  payment_url : Option String := none
  payUrl : Option String := none
  url : Option String := none
  redirect_url : Option String := none
  qr_url : Option String := none
  data_pay_url : Option String := none
  data_payment_url : Option String := none
deriving DecidableEq

/-- JavaScript `a || b` on possibly-absent strings: keep `a` when truthy. -/
def jsOrStr (a b : Option String) : Option String :=
  match a with
  | some s => if s = "" then b else some s
  | none => b

/-- Outcome of a root create-order request, naming the response each branch
sends. -/
inductive RootOrderOutcome where
  | amountRequired      -- HTTP 400 'Amount is required'
  | configMissingErr    -- HTTP 500 'LG-Pay configuration missing'
  | signBothFailed      -- 'Signature verification failed with both methods'
  | orderFailed         -- HTTP 500 'Order creation failed' (catch block)
  | successPayload : String → String → RootOrderOutcome
      -- success payload with order_sn and pay_url
  | noPaymentUrl        -- 'No payment URL received from LG-Pay'
deriving DecidableEq

/-- Helper `processSuccessResponse` (root `server.js` lines 264–300): probe the
response for a payment URL in priority order and build the success payload,
or report that no URL was found.  The root handler never reaches this
function (claim C10); it is defined here exactly because the claims compare
what it would produce with what the handler actually does. -/
def processSuccessResponse (r : GwResponse) (orderSn : String) : RootOrderOutcome :=
  let paymentUrl := jsOrStr r.pay_url (jsOrStr r.payment_url (jsOrStr r.payUrl
    (jsOrStr r.url (jsOrStr r.redirect_url (jsOrStr r.qr_url
      (jsOrStr r.data_pay_url r.data_payment_url))))))
  match paymentUrl with
  | some u => if u = "" then .noPaymentUrl else .successPayload orderSn u
  | none => .noPaymentUrl

/-- The `try` block of the root `/api/create-order` handler (lines
128–245).  The handler is an arrow function, so `this` inside it is the
CommonJS module's initial `module.exports` object, which has no
`processSuccessResponse` member; both calls `this.processSuccessResponse(...)`
therefore throw `TypeError`, modelled as `Except.error`.  The gateway
responses to the first request and to the alternative-signature retry are
inputs. -/
def tryCreateOrderRoot (amount : AmountInput) (cfg : Config)
    (reqIp : Option String) (orderSn : String) (first retry : GwResponse) :
    Except Unit RootOrderOutcome :=
  if amountFalsy amount then .ok .amountRequired
  else if configMissing cfg then .ok .configMissingErr
  else
    let amountInPaisa := jsRound (parseFloatQ amount * 100)
    let orderData := orderFields cfg orderSn amountInPaisa reqIp
    let signature1 := md5_sign orderData cfg.secret_key
    let _signature2 := md5_sign_v2 orderData cfg.secret_key
    let _signed := objSet orderData "sign" (.str signature1)
    if first.msg = some "Sign Error" ∨ first.status = some 0 then
      if retry.msg = some "Sign Error" then .ok .signBothFailed
      else .error ()   -- return this.processSuccessResponse(retryResponse.data, ...)
    else .error ()     -- this.processSuccessResponse(lgPayResponse, ...)

/-- The root `/api/create-order` handler with its `catch` block (lines
246–260): a thrown `TypeError` becomes the HTTP 500 'Order creation failed'
response. -/
def createOrderRoot (amount : AmountInput) (cfg : Config)
    (reqIp : Option String) (orderSn : String) (first retry : GwResponse) :
    RootOrderOutcome :=
  match tryCreateOrderRoot amount cfg reqIp orderSn first retry with
  | .ok r => r
  | .error _ => .orderFailed

/-! ## Sanity: RFC 1321 test vectors for the embedded MD5 -/

set_option maxRecDepth 8000 in
/-- RFC 1321 test vector: `MD5("") = d41d8cd98f00b204e9800998ecf8427e`. -/
theorem md5_testVector_empty :
    md5HexLower "" = "d41d8cd98f00b204e9800998ecf8427e" := by decide

set_option maxRecDepth 8000 in
/-- RFC 1321 test vector: `MD5("abc") = 900150983cd24fb0d6963f7d28e17f72`. -/
theorem md5_testVector_abc :
    md5HexLower "abc" = "900150983cd24fb0d6963f7d28e17f72" := by decide

/-! ## Object-operation lemmas -/

/-- Looking up `k` after overwriting `k` finds the new value (overwrite
branch of `objSet`). -/
theorem find?_map_overwrite (m : PMap) (k : String) (v : JsValue)
    (h : List.any m (fun p => p.1 == k) = true) :
    List.find? (fun p => p.1 == k)
      (List.map (fun p => if p.1 == k then (k, v) else p) m) = some (k, v) := by
  induction m with
  | nil => simp at h
  | cons p rest ih =>
      rw [List.map_cons]
      by_cases hp : (p.1 == k) = true
      · rw [if_pos hp]
        exact List.find?_cons_of_pos _ (by simp)
      · rw [if_neg hp]
        have hp' : (p.1 == k) = false := by simpa using hp
        rw [List.find?_cons, hp']
        simp only [List.any_cons, Bool.or_eq_true] at h
        exact ih (h.resolve_left hp)

/-- Looking up `k` after appending a fresh pair `(k, v)` finds it (append
branch of `objSet`). -/
theorem find?_append_fresh (m : PMap) (k : String) (v : JsValue)
    (h : List.any m (fun p => p.1 == k) = false) :
    List.find? (fun p => p.1 == k) (m ++ [(k, v)]) = some (k, v) := by
  induction m with
  | nil => simp
  | cons p rest ih =>
      simp only [List.any_cons, Bool.or_eq_false_iff] at h
      simp [List.find?_cons, h.1, ih h.2]

/-- Reading the reserved field back after attaching it. -/
theorem objGet_objSet (m : PMap) (k : String) (v : JsValue) :
    objGet (objSet m k v) k = some v := by
  unfold objGet objSet
  by_cases h : List.any m (fun p => p.1 == k) = true
  · rw [if_pos h, find?_map_overwrite m k v h]
    rfl
  · rw [if_neg h, find?_append_fresh m k v (Bool.not_eq_true _ ▸ h)]
    rfl

/-- Deleting `k` ignores an overwrite of `k`. -/
theorem filter_ne_map_overwrite (m : PMap) (k : String) (v : JsValue) :
    List.filter (fun p => p.1 != k)
      (List.map (fun p => if p.1 == k then (k, v) else p) m) =
    List.filter (fun p => p.1 != k) m := by
  induction m with
  | nil => rfl
  | cons p rest ih =>
      rw [List.map_cons, List.filter_cons, List.filter_cons]
      by_cases hp : (p.1 == k) = true
      · rw [if_pos hp]
        have h1 : (((k, v) : String × JsValue).1 != k) = false := by simp
        have h2 : (p.1 != k) = false := by simp [bne, hp]
        rw [h1, h2]
        simpa using ih
      · rw [if_neg hp]
        have h2 : (p.1 != k) = true := by
          simp only [bne]
          simpa using hp
        rw [h2]
        simpa [h2] using congrArg (p :: ·) ih

/-- Deleting `k` after setting `k` is deleting `k`. -/
theorem objDelete_objSet (m : PMap) (k : String) (v : JsValue) :
    objDelete (objSet m k v) k = objDelete m k := by
  unfold objDelete objSet
  by_cases h : List.any m (fun p => p.1 == k) = true
  · rw [if_pos h, filter_ne_map_overwrite]
  · rw [if_neg h, List.filter_append]
    simp

/-- Deleting a field twice is deleting it once. -/
theorem objDelete_idem (m : PMap) (k : String) :
    objDelete (objDelete m k) k = objDelete m k := by
  unfold objDelete
  simp [List.filter_filter]

/-- The signing function strips the reserved field itself, so pre-stripping
does not change the signature. -/
theorem md5_sign_objDelete (m : PMap) (key : String) :
    md5_sign (objDelete m "sign") key = md5_sign m key := by
  unfold md5_sign stringToSign
  rw [objDelete_idem]

/-- C2. For every ParameterMap `m` and secret `k`, attaching the computed
signature under the reserved `sign` field and then verifying the resulting
SignedRequest with the same secret succeeds: the webhook's verification step
recomputes the signature over the map with the `sign` field stripped and
compares by strict string equality, and both tokens coincide. -/
theorem sign_attached_verifies (m : PMap) (key : String) :
    verifySignature (signAttached m key) key = true := by
  unfold verifySignature signAttached
  rw [objGet_objSet, objDelete_objSet, md5_sign_objDelete]
  simp [jsStrictEqStr]

/-! ## The code's canonical string equals the specification's -/

/-- A pair produced for key `k` is keyed by `k`. -/
theorem pairFn_fst {m : PMap} {k : String} {p : String × JsValue} :
    pairFn m k = some p → p.1 = k := by
  unfold pairFn
  cases objGet m k with
  | none => intro h; exact absurd h (by simp)
  | some v =>
      show (if isSignable v = true then some (k, v) else none) = some p → p.1 = k
      by_cases hs : isSignable v = true
      · rw [if_pos hs]
        intro h
        injection h with h'
        rw [← h']
      · rw [if_neg hs]
        intro h
        exact absurd h (by simp)

/-- Member access at the head key. -/
theorem objGet_cons_self (p : String × JsValue) (m : PMap) :
    objGet (p :: m) p.1 = some p.2 := by
  unfold objGet
  rw [List.find?_cons_of_pos _ (by simp)]
  rfl

/-- Member access skips a head pair with a different key. -/
theorem objGet_cons_ne (p : String × JsValue) (m : PMap) (k : String)
    (h : k ≠ p.1) : objGet (p :: m) k = objGet m k := by
  unfold objGet
  have hf : (p.1 == k) = false := beq_false_of_ne (Ne.symm h)
  rw [List.find?_cons, hf]

/-- Looking up the keys of a duplicate-free map keeps exactly its signable
pairs, in order. -/
theorem filterMap_pairFn_objKeys (m : PMap) (hnd : (objKeys m).Nodup) :
    (objKeys m).filterMap (pairFn m) =
      List.filter (fun p => isSignable p.2) m := by
  induction m with
  | nil => rfl
  | cons p rest ih =>
      have h0 : p.1 ∉ objKeys rest ∧ (objKeys rest).Nodup := by
        simpa [objKeys] using hnd
      show List.filterMap (pairFn (p :: rest)) (p.1 :: objKeys rest) = _
      have hhead : pairFn (p :: rest) p.1 =
          if isSignable p.2 then some p else none := by
        unfold pairFn
        rw [objGet_cons_self]
      have htail : (objKeys rest).filterMap (pairFn (p :: rest)) =
          (objKeys rest).filterMap (pairFn rest) := by
        apply List.filterMap_congr
        intro k hk
        unfold pairFn
        rw [objGet_cons_ne _ _ _ (fun he => h0.1 (he ▸ hk))]
      rw [List.filterMap_cons, hhead, htail, ih h0.2, List.filter_cons]
      by_cases hs : isSignable p.2 = true
      · rw [if_pos hs, if_pos hs]
      · rw [if_neg hs, if_neg hs]

/-- The keys of the pairs kept by the signing loop form a sublist of the
keys it iterates. -/
theorem map_fst_filterMap_pairFn (m : PMap) (ks : List String) :
    List.Sublist ((ks.filterMap (pairFn m)).map Prod.fst) ks := by
  induction ks with
  | nil => simp
  | cons k ks ih =>
      rw [List.filterMap_cons]
      cases h : pairFn m k with
      | none => exact ih.cons _
      | some p =>
          rw [List.map_cons, pairFn_fst h]
          exact ih.cons₂ _

/-- A list of pairs whose keys are both weakly sorted and duplicate-free is
strictly sorted by key. -/
theorem sorted_keyLt_of_le_nodup (l : List (String × JsValue))
    (hle : List.Pairwise (fun a b : String => a ≤ b) (l.map Prod.fst))
    (hnd : (l.map Prod.fst).Nodup) : List.Sorted keyLt l := by
  have h1 : List.Pairwise (fun p q : String × JsValue => p.1 ≤ q.1) l :=
    List.pairwise_map.mp hle
  have h2 : List.Pairwise (fun p q : String × JsValue => p.1 ≠ q.1) l :=
    List.pairwise_map.mp hnd
  exact (h1.and h2).imp fun h => lt_of_le_of_ne h.1 h.2

/-- The heart of claims C1 and C8: on a duplicate-free map, sorting the
keys and then looking each one up (the code) yields exactly the signable
pairs sorted by field name (the specification). -/
theorem codePairs_eq_sortedPairs (m : PMap) (hnd : (objKeys m).Nodup) :
    (sortKeys (objKeys m)).filterMap (pairFn m) =
      List.insertionSort keyLe (List.filter (fun p => isSignable p.2) m) := by
  have hpermKeys : List.Perm (sortKeys (objKeys m)) (objKeys m) :=
    List.perm_insertionSort _ _
  have hperm :
      List.Perm ((sortKeys (objKeys m)).filterMap (pairFn m))
        (List.insertionSort keyLe (List.filter (fun p => isSignable p.2) m)) := by
    have h1 := List.Perm.filterMap (pairFn m) hpermKeys
    rw [filterMap_pairFn_objKeys m hnd] at h1
    exact h1.trans (List.perm_insertionSort keyLe _).symm
  have hndSorted : (sortKeys (objKeys m)).Nodup :=
    hpermKeys.nodup_iff.mpr hnd
  have hs1 : List.Sorted keyLt ((sortKeys (objKeys m)).filterMap (pairFn m)) := by
    apply sorted_keyLt_of_le_nodup
    · exact List.Pairwise.sublist (map_fst_filterMap_pairFn m _)
        (List.sorted_insertionSort _ _)
    · exact (map_fst_filterMap_pairFn m _).nodup hndSorted
  have hs2 : List.Sorted keyLt
      (List.insertionSort keyLe (List.filter (fun p => isSignable p.2) m)) := by
    apply sorted_keyLt_of_le_nodup
    · exact List.pairwise_map.mpr (List.sorted_insertionSort keyLe _)
    · have hsub : ((List.filter (fun p : String × JsValue => isSignable p.2) m).map
          Prod.fst).Sublist (objKeys m) :=
        List.Sublist.map Prod.fst (List.filter_sublist m)
      have hndFilter := hsub.nodup hnd
      exact ((List.perm_insertionSort keyLe _).map Prod.fst).nodup_iff.mpr hndFilter
  exact List.eq_of_perm_of_sorted hperm hs1 hs2

/-- Deleting a field keeps the key list duplicate-free. -/
theorem objKeys_objDelete_nodup (m : PMap) (hnd : (objKeys m).Nodup) :
    (objKeys (objDelete m "sign")).Nodup :=
  (List.Sublist.map Prod.fst (List.filter_sublist m)).nodup hnd

/-- Rendered form of the signing loop: rendering inside the loop is the
same as collecting the pairs and rendering afterwards. -/
theorem filterMap_render_eq_map_pairFn (mm : PMap) (ks : List String) :
    (ks.filterMap fun k =>
      match objGet mm k with
      | some value =>
          if isSignable value then some (k ++ "=" ++ renderValue value) else none
      | none => none) = (ks.filterMap (pairFn mm)).map renderPair := by
  rw [List.map_filterMap]
  apply List.filterMap_congr
  intro k _
  unfold pairFn renderPair
  cases objGet mm k with
  | none => rfl
  | some v =>
      show (if isSignable v = true then some (k ++ "=" ++ renderValue v) else none) =
        Option.map _ (if isSignable v = true then some (k, v) else none)
      by_cases hs : isSignable v = true
      · rw [if_pos hs, if_pos hs]
        rfl
      · rw [if_neg hs, if_neg hs]
        rfl

/-- Master form of the canonical-string correspondence: on a duplicate-free
map, the string the code signs is the specification's canonical string of
the map with the reserved field removed. -/
theorem stringToSign_eq_specCanonical (m : PMap) (key : String)
    (hnd : (objKeys m).Nodup) :
    stringToSign m key = specCanonicalString (objDelete m "sign") key := by
  have hnd' := objKeys_objDelete_nodup m hnd
  show String.intercalate "&"
      ((sortKeys (objKeys (objDelete m "sign"))).filterMap fun k =>
        match objGet (objDelete m "sign") k with
        | some value =>
            if isSignable value then some (k ++ "=" ++ renderValue value) else none
        | none => none) ++ "&key=" ++ key =
    String.intercalate "&"
      ((List.insertionSort keyLe
        (List.filter (fun p => isSignable p.2) (objDelete m "sign"))).map
          renderPair) ++ "&key=" ++ key
  rw [filterMap_render_eq_map_pairFn, codePairs_eq_sortedPairs _ hnd']

/-- C1. For every ParameterMap with the reserved `sign` field absent (and
object-literal keys, i.e. duplicate-free) and every secret, the signature
token equals the uppercase hexadecimal MD5 digest of the string built by
sorting the remaining (signable) field names ascending, rendering each
field as `name=value` with raw values, joining with `&`, and appending the
literal suffix `&key=<secret>` — the specification's canonical recipe of
§4.1, where "remaining" field names are the ones left by steps 1–2 (the
reserved field and the empty/null/undefined-valued fields removed). -/
theorem md5_sign_eq_specCanonical (m : PMap) (key : String)
    (hnd : (objKeys m).Nodup) (hnosign : "sign" ∉ objKeys m) :
    md5_sign m key = md5HexUpper (specCanonicalString m key) := by
  have hdel : objDelete m "sign" = m := by
    unfold objDelete
    apply List.filter_eq_self.mpr
    intro p hp
    have hne : p.1 ≠ "sign" :=
      fun he => hnosign (he ▸ List.mem_map_of_mem Prod.fst hp)
    simpa using hne
  unfold md5_sign
  rw [stringToSign_eq_specCanonical m key hnd, hdel]

/-- Witness for C1 at a concrete two-field map. -/
theorem md5_sign_eq_specCanonical_witness :
    (objKeys [("b", JsValue.str "2"), ("a", JsValue.str "1")]).Nodup ∧
    "sign" ∉ objKeys [("b", JsValue.str "2"), ("a", JsValue.str "1")] ∧
    md5_sign [("b", JsValue.str "2"), ("a", JsValue.str "1")] "k" =
      md5HexUpper
        (specCanonicalString [("b", JsValue.str "2"), ("a", JsValue.str "1")] "k") :=
  ⟨by decide, by decide,
   md5_sign_eq_specCanonical [("b", JsValue.str "2"), ("a", JsValue.str "1")] "k"
     (by decide) (by decide)⟩

/-- C8. For every ParameterMap `m` (object-literal keys), fresh field name
`x`, and secret `k`, adding a field whose value is empty, null, or
undefined does not change the signature, because such fields are excluded
from the string-to-sign. -/
theorem md5_sign_append_unsignable (m : PMap) (x : String) (v : JsValue)
    (key : String) (hnd : (objKeys m).Nodup) (hx : x ∉ objKeys m)
    (hv : isSignable v = false) :
    md5_sign (m ++ [(x, v)]) key = md5_sign m key := by
  have hkeys : objKeys (m ++ [(x, v)]) = objKeys m ++ [x] := by
    simp [objKeys]
  have hnd2 : (objKeys (m ++ [(x, v)])).Nodup := by
    rw [hkeys]
    exact List.Nodup.append hnd (by simp) (by simpa using hx)
  unfold md5_sign
  rw [stringToSign_eq_specCanonical _ key hnd2,
    stringToSign_eq_specCanonical _ key hnd]
  have hfilter :
      List.filter (fun p => isSignable p.2) (objDelete (m ++ [(x, v)]) "sign") =
      List.filter (fun p => isSignable p.2) (objDelete m "sign") := by
    unfold objDelete
    rw [List.filter_append]
    have hsingle :
        List.filter (fun p => isSignable p.2)
          (List.filter (fun p => p.1 != "sign") [(x, v)]) = [] := by
      by_cases hxs : (x != "sign") = true
      · simp [List.filter_cons, hxs, hv]
      · simp [List.filter_cons, hxs]
    rw [List.filter_append, hsingle, List.append_nil]
  simp only [specCanonicalString]
  rw [hfilter]

/-- Witness for C8 at a concrete map and empty-string field. -/
theorem md5_sign_append_unsignable_witness :
    (objKeys [("a", JsValue.str "1")]).Nodup ∧
    "b" ∉ objKeys [("a", JsValue.str "1")] ∧
    isSignable (JsValue.str "") = false ∧
    md5_sign ([("a", JsValue.str "1")] ++ [("b", JsValue.str "")]) "k" =
      md5_sign [("a", JsValue.str "1")] "k" :=
  ⟨by decide, by decide, by decide,
   md5_sign_append_unsignable [("a", JsValue.str "1")] "b" (JsValue.str "") "k"
     (by decide) (by decide) (by decide)⟩

/-- A successful member access returns one of the stored values. -/
theorem objGet_mem_values {m : PMap} {k : String} {v : JsValue}
    (h : objGet m k = some v) : v ∈ m.map Prod.snd := by
  unfold objGet at h
  cases hf : List.find? (fun p => p.1 == k) m with
  | none => rw [hf] at h; exact absurd h (by simp)
  | some q =>
      rw [hf] at h
      injection h with h'
      rw [← h']
      exact List.mem_map_of_mem Prod.snd (List.mem_of_find?_eq_some hf)

/-- Counterexample to C9 as stated: on the empty map the code's
string-to-sign is `&key=secret` — with a leading ampersand, because the
code appends the literal `"&key=" + key` even to the empty join — and not
the claimed `key=secret`. -/
theorem stringToSign_empty_counterexample :
    stringToSign [] "secret" = "&key=secret" ∧
    stringToSign [] "secret" ≠ "key=secret" := by
  constructor
  · rfl
  · decide

/-- C9 (amended). For every secret, signing a ParameterMap with zero
signable fields (empty, or all values empty/null/undefined) produces a
defined signature whose string-to-sign degenerates to exactly
`&key=<secret>` — the join of zero pairs is empty and the literal suffix
`&key=<secret>` is still appended. -/
theorem stringToSign_no_signable (m : PMap) (key : String)
    (h : ∀ v ∈ m.map Prod.snd, isSignable v = false) :
    stringToSign m key = "&key=" ++ key ∧
    md5_sign m key = md5HexUpper ("&key=" ++ key) := by
  have hpairs :
      ((sortKeys (objKeys (objDelete m "sign"))).filterMap fun k =>
        match objGet (objDelete m "sign") k with
        | some value =>
            if isSignable value then some (k ++ "=" ++ renderValue value) else none
        | none => none) = [] := by
    apply List.filterMap_eq_nil_iff.mpr
    intro k _
    cases hg : objGet (objDelete m "sign") k with
    | none => rfl
    | some v =>
        have hvm : v ∈ m.map Prod.snd := by
          have h1 := objGet_mem_values hg
          exact ((List.Sublist.map Prod.snd
            (List.filter_sublist m)).subset) h1
        have hv := h v hvm
        show (if isSignable v = true then some (k ++ "=" ++ renderValue v) else none) = none
        rw [if_neg (by simp [hv])]
  have hsts : stringToSign m key = "&key=" ++ key := by
    show String.intercalate "&"
        ((sortKeys (objKeys (objDelete m "sign"))).filterMap fun k =>
          match objGet (objDelete m "sign") k with
          | some value =>
              if isSignable value then some (k ++ "=" ++ renderValue value) else none
          | none => none) ++ "&key=" ++ key = "&key=" ++ key
    rw [hpairs]
    rw [show String.intercalate "&" [] ++ "&key=" = "&key=" from rfl]
  exact ⟨hsts, by unfold md5_sign; rw [hsts]⟩

/-- Witness for the amended C9 at a one-field map whose value is empty. -/
theorem stringToSign_no_signable_witness :
    isSignable (JsValue.str "") = false ∧
    stringToSign [("a", JsValue.str "")] "secret" = "&key=" ++ "secret" :=
  ⟨by decide,
   (stringToSign_no_signable [("a", JsValue.str "")] "secret" (by decide)).1⟩

/-- Counterexample to C3 as stated: a notification that *contains* a `sign`
field whose (empty-string) value certainly differs from the recomputed
signature — the recomputed token is a 32-character digest, here evaluated
concretely — is nevertheless answered with the `'success'`
acknowledgement, because `if (notifyData.sign)` treats the empty string as
absent and skips verification entirely. -/
theorem webhook_empty_sign_counterexample :
    objGet [("order_sn", JsValue.str "p123"), ("money", JsValue.str "100"),
        ("sign", JsValue.str "")] "sign" = some (JsValue.str "") ∧
    md5_sign (objDelete [("order_sn", JsValue.str "p123"),
        ("money", JsValue.str "100"), ("sign", JsValue.str "")] "sign")
      "secret" ≠ "" ∧
    webhook [("order_sn", JsValue.str "p123"), ("money", JsValue.str "100"),
        ("sign", JsValue.str "")] "secret" = .success := by
  refine ⟨by decide, by decide, by decide⟩

/-- C3 (amended). For every inbound notification map that contains a
truthy `sign` field holding a non-empty string, with the secret configured:
if the value differs from the signature recomputed over the remaining
fields the webhook responds HTTP 400 `Invalid signature` and the
`'success'` acknowledgement (the point where the business hook would run)
is not produced; `'success'` is produced exactly when the recomputed
signature matches. -/
theorem webhook_mismatch_rejected (m : PMap) (key s : String)
    (hk : key ≠ "") (hs : objGet m "sign" = some (JsValue.str s))
    (hne : s ≠ "") :
    (s ≠ md5_sign (objDelete m "sign") key →
      webhook m key = .invalidSignature ∧
      webhookStatus (webhook m key) = 400) ∧
    (webhook m key = .success ↔ s = md5_sign (objDelete m "sign") key) := by
  by_cases heq : s = md5_sign (objDelete m "sign") key
  · have hw : webhook m key = .success := by
      simp [webhook, hk, hs, jsVTruthy, jsStrictEqStr, hne, heq]
    exact ⟨fun hcon => absurd heq hcon, by simp [hw, heq]⟩
  · have hw : webhook m key = .invalidSignature := by
      simp [webhook, hk, hs, jsVTruthy, jsStrictEqStr, hne, heq]
    refine ⟨fun _ => ⟨hw, by rw [hw]; rfl⟩, ?_⟩
    rw [hw]
    simp [heq]

/-- Witness for the amended C3 at a concrete notification whose `sign`
value is a wrong non-empty token. -/
theorem webhook_mismatch_rejected_witness :
    ("secret" : String) ≠ "" ∧
    objGet [("order_sn", JsValue.str "p123"), ("money", JsValue.str "100"),
        ("sign", JsValue.str "WRONG")] "sign" = some (JsValue.str "WRONG") ∧
    ("WRONG" : String) ≠ "" ∧
    (webhook [("order_sn", JsValue.str "p123"), ("money", JsValue.str "100"),
        ("sign", JsValue.str "WRONG")] "secret" = .success ↔
      "WRONG" = md5_sign (objDelete [("order_sn", JsValue.str "p123"),
        ("money", JsValue.str "100"), ("sign", JsValue.str "WRONG")] "sign")
        "secret") :=
  ⟨by decide, by decide, by decide,
   (webhook_mismatch_rejected [("order_sn", JsValue.str "p123"),
      ("money", JsValue.str "100"), ("sign", JsValue.str "WRONG")]
      "secret" "WRONG" (by decide) (by decide) (by decide)).2⟩

/-- C4. For every inbound notification map lacking the reserved `sign`
field, with the secret configured: the common webhook handler (root,
variants 000/001/002) answers the `'success'` acknowledgement without any
signature verification, and so does the `part_003` handler whenever the
body is non-empty. -/
theorem webhook_missing_sign_accepted (m : PMap) (key : String)
    (hk : key ≠ "") (hno : objGet m "sign" = none) :
    webhook m key = .success ∧ (m ≠ [] → webhookP3 m key = .success) := by
  constructor
  · simp [webhook, hk, hno]
  · intro hm
    have hne : m.isEmpty = false := by
      simpa [List.isEmpty_iff] using hm
    simp [webhookP3, hk, hno, hne]

/-- Witness for C4 at a concrete unsigned notification. -/
theorem webhook_missing_sign_accepted_witness :
    ("secret" : String) ≠ "" ∧
    objGet [("order_sn", JsValue.str "p123"),
        ("money", JsValue.str "100")] "sign" = none ∧
    webhook [("order_sn", JsValue.str "p123"),
        ("money", JsValue.str "100")] "secret" = .success ∧
    webhookP3 [("order_sn", JsValue.str "p123"),
        ("money", JsValue.str "100")] "secret" = .success := by
  have h := webhook_missing_sign_accepted
    [("order_sn", JsValue.str "p123"), ("money", JsValue.str "100")]
    "secret" (by decide) (by decide)
  exact ⟨by decide, by decide, h.1, h.2 (by decide)⟩

/-- C5. For every create-order request whose amount is missing,
non-numeric, or less than or equal to zero, the order builders with the
full validation guard (`part_001`, and `part_000` alike) answer
`invalidAmount` with HTTP 400 and no SignedRequest is produced (the
`order` outcome is not reached); in particular amounts `0` and `-5` are
both rejected (witness). -/
theorem createOrder_invalid_amount (a : AmountInput) (cfg : Config)
    (ip : Option String) (sn : String) (h : amountInvalid a = true) :
    createOrderP1 a cfg ip sn = .invalidAmount ∧
    createOrderStatus (createOrderP1 a cfg ip sn) = 400 ∧
    createOrderP0 a cfg ip sn = .invalidAmount := by
  have hp1 : createOrderP1 a cfg ip sn = .invalidAmount := by
    unfold createOrderP1
    rw [if_pos h]
  have hp0 : createOrderP0 a cfg ip sn = .invalidAmount := by
    unfold createOrderP0
    rw [if_pos h]
  exact ⟨hp1, by rw [hp1]; rfl, hp0⟩

/-- Witness for C5 at the amounts `0` and `-5` named by the claim. -/
theorem createOrder_invalid_amount_witness :
    amountInvalid (.num 0) = true ∧ amountInvalid (.num (-5)) = true ∧
    createOrderP1 (.num 0) ⟨"app", "secret", "trade", "url"⟩ none "p1" =
      .invalidAmount ∧
    createOrderP1 (.num (-5)) ⟨"app", "secret", "trade", "url"⟩ none "p1" =
      .invalidAmount :=
  ⟨by decide, by decide,
   (createOrder_invalid_amount (.num 0) ⟨"app", "secret", "trade", "url"⟩
     none "p1" (by decide)).1,
   (createOrder_invalid_amount (.num (-5)) ⟨"app", "secret", "trade", "url"⟩
     none "p1" (by decide)).1⟩

/-- C6. With the minimum-amount policy of `part_000` (threshold 200),
every request with a valid positive amount strictly below 200 is rejected
with an HTTP 400 `belowMinimum` response reporting the required minimum,
the provided amount, and the shortfall `200 - amount`; in particular the
amount 150 reports shortfall 50 (witness). -/
theorem createOrder_below_minimum (q : ℚ) (cfg : Config)
    (ip : Option String) (sn : String)
    (hvalid : amountInvalid (.num q) = false) (hlt : q < 200) :
    createOrderP0 (.num q) cfg ip sn = .belowMinimum 200 q (200 - q) ∧
    createOrderMinStatus (createOrderP0 (.num q) cfg ip sn) = 400 := by
  unfold createOrderP0
  rw [if_neg (by simp [hvalid])]
  have hmin : parseFloatQ (.num q) < LGPAY_MIN_AMOUNT := by
    simpa [parseFloatQ, LGPAY_MIN_AMOUNT] using hlt
  rw [if_pos hmin]
  exact ⟨by simp [parseFloatQ, LGPAY_MIN_AMOUNT], rfl⟩

/-- Witness for C6 at the amount 150 named by the claim, shortfall 50. -/
theorem createOrder_below_minimum_witness :
    amountInvalid (.num 150) = false ∧ (150 : ℚ) < 200 ∧
    createOrderP0 (.num 150) ⟨"app", "secret", "trade", "url"⟩ none "p1" =
      .belowMinimum 200 150 50 := by
  refine ⟨by decide, by norm_num, ?_⟩
  have h := (createOrder_below_minimum 150 ⟨"app", "secret", "trade", "url"⟩
    none "p1" (by decide) (by norm_num)).1
  rw [show (200 - 150 : ℚ) = 50 by norm_num] at h
  exact h

/-- C7. For every validated amount `a` (in major units, modelled as the
rational the JSON number denotes) and complete configuration, the
minor-unit amount is the ordinary rounding of `a * 100`, and the
SignedRequest produced by the minimum-free builder is exactly the seven
composed order fields unchanged followed by exactly one added `sign`
field; the amount `199.5` yields minor units `19950`. -/
theorem createOrder_composition (q : ℚ) (cfg : Config) (ip : Option String)
    (sn : String) (hq : 0 < q) (hcfg : configMissing cfg = false) :
    createOrderP1 (.num q) cfg ip sn =
      .order (orderFields cfg sn (jsRound (q * 100)) ip ++
        [("sign", .str (generateSignature
          (orderFields cfg sn (jsRound (q * 100)) ip) cfg.secret_key))]) ∧
    objGet (orderFields cfg sn (jsRound (q * 100)) ip) "money" =
      some (.str (toString (jsRound (q * 100)))) ∧
    jsRound ((199.5 : ℚ) * 100) = 19950 := by
  have hvalid : amountInvalid (.num q) = false := by
    simp [amountInvalid, amountFalsy, amountIsNaN, amountLeZero, hq.ne',
      not_le.mpr hq]
  have hany : (orderFields cfg sn (jsRound (q * 100)) ip).any
      (fun p => p.1 == "sign") = false := rfl
  refine ⟨?_, rfl, ?_⟩
  · unfold createOrderP1
    rw [if_neg (by simp [hvalid]), if_neg (by simp [hcfg])]
    show CreateOrderResult.order (objSet (orderFields cfg sn
      (jsRound (q * 100)) ip) "sign"
        (.str (generateSignature (orderFields cfg sn (jsRound (q * 100)) ip)
          cfg.secret_key))) = _
    unfold objSet
    rw [if_neg (by rw [hany]; exact Bool.false_ne_true)]
  · unfold jsRound
    rw [show (199.5 : ℚ) * 100 + 1 / 2 = 19950 + 1 / 2 by norm_num,
      Int.floor_eq_iff]
    norm_num

/-- Witness for C7 at the amount `199.5` of the claim's scenario. -/
theorem createOrder_composition_witness :
    (0 : ℚ) < 199.5 ∧
    configMissing ⟨"app", "secret", "trade", "url"⟩ = false ∧
    createOrderP1 (.num 199.5) ⟨"app", "secret", "trade", "url"⟩ none "p1" =
      .order (orderFields ⟨"app", "secret", "trade", "url"⟩ "p1"
        (jsRound ((199.5 : ℚ) * 100)) none ++
        [("sign", .str (generateSignature
          (orderFields ⟨"app", "secret", "trade", "url"⟩ "p1"
            (jsRound ((199.5 : ℚ) * 100)) none) "secret"))]) ∧
    jsRound ((199.5 : ℚ) * 100) = 19950 := by
  have h := createOrder_composition 199.5 ⟨"app", "secret", "trade", "url"⟩
    none "p1" (by norm_num) (by decide)
  exact ⟨by norm_num, by decide, h.1, h.2.2⟩

/-- C10. In the root variant, every create-order request that passes the
amount and configuration checks and receives a first gateway response that
is not a signature error ends in the HTTP 500 'Order creation failed'
response: the success path calls `this.processSuccessResponse(...)`, whose
`this` (the CommonJS module's initial `exports` object) has no such member,
so the call throws `TypeError` and lands in the catch block.  Moreover no
input whatsoever can produce the success payload with `order_sn` and
`pay_url` in this variant. -/
theorem createOrderRoot_success_unreachable (amount : AmountInput)
    (cfg : Config) (ip : Option String) (sn : String)
    (first retry : GwResponse)
    (h1 : amountFalsy amount = false) (h2 : configMissing cfg = false)
    (h3 : first.msg ≠ some "Sign Error") (h4 : first.status ≠ some 0) :
    createOrderRoot amount cfg ip sn first retry = .orderFailed ∧
    ∀ (a : AmountInput) (c : Config) (i : Option String) (s : String)
      (f r : GwResponse) (osn purl : String),
      createOrderRoot a c i s f r ≠ .successPayload osn purl := by
  constructor
  · simp [createOrderRoot, tryCreateOrderRoot, h1, h2, h3, h4]
  · intro a c i s f r osn purl
    simp only [createOrderRoot, tryCreateOrderRoot]
    split_ifs <;> simp

/-- Witness for C10 at a concrete request and gateway response. -/
theorem createOrderRoot_success_unreachable_witness :
    amountFalsy (.num 5) = false ∧
    configMissing ⟨"app", "secret", "trade", "url"⟩ = false ∧
    ({ msg := some "OK", status := some 1 } : GwResponse).msg ≠
      some "Sign Error" ∧
    ({ msg := some "OK", status := some 1 } : GwResponse).status ≠ some 0 ∧
    createOrderRoot (.num 5) ⟨"app", "secret", "trade", "url"⟩ none "p1"
      { msg := some "OK", status := some 1 } {} = .orderFailed :=
  ⟨by decide, by decide, by decide, by decide,
   (createOrderRoot_success_unreachable (.num 5)
     ⟨"app", "secret", "trade", "url"⟩ none "p1"
     { msg := some "OK", status := some 1 } {}
     (by decide) (by decide) (by decide) (by decide)).1⟩
